/-
  Verification of the rate-derivation and pricing pipeline of the
  api-rate-checker service (src/script.js, with the strict variant in
  src/unnamed/part_002).

  All JavaScript numbers are modelled as exact rationals (ℚ); the only
  places where IEEE semantics matter for the verified claims are the
  special values NaN / ±Infinity produced by parseFloat, which are
  modelled explicitly by the `JsNum` type, and `Math.round`, modelled
  exactly as ⌊x + 1/2⌋ (JS rounds half toward +∞).
-/
import Mathlib

namespace RateChecker

/-! ## Configuration (src/script.js lines 83-148)

Default values of the `config` object: environment overrides absent. -/

/-- `config.pricing.minProfitMargin` default 0.8 (percent). -/
def minProfitMargin : ℚ := 0.8

/-- `config.pricing.ngnMarkup` default 20 (flat markup added to the NGN rate). -/
def ngnMarkup : ℚ := 20

/-- `config.pricing.localRateMin` = 16.2. -/
def localRateMin : ℚ := 16.2

/-- `config.pricing.localRateMax` = 16.5. -/
def localRateMax : ℚ := 16.5

/-- `config.pricing.discountRangeMin` = 15.85. -/
def discountRangeMin : ℚ := 15.85

/-- `config.pricing.discountRangeMax` = 15.98. -/
def discountRangeMax : ℚ := 15.98

/-- `config.pricing.targetProfitMargin` = 2.5. -/
def targetProfitMargin : ℚ := 2.5

/-- `config.fallback.ngnRate` default 1650. -/
def fallbackNgnRate : ℚ := 1650

/-- `config.limits.minTransaction` = 1000. -/
def minTransaction : ℚ := 1000

/-- `config.limits.maxTransaction` = 5000000. -/
def maxTransaction : ℚ := 5000000

/-! ## JS rounding helpers -/

/-- JavaScript `Math.round`: rounds half toward +∞, i.e. `⌊x + 1/2⌋`.
(`Rat.floor` is used so the definition evaluates by kernel reduction.) -/
def jsRound (x : ℚ) : ℤ := (x + 1/2).floor

theorem jsRound_eq_floor (x : ℚ) : jsRound x = ⌊x + 1/2⌋ := by
  rw [jsRound, Rat.floor_def, ← Rat.floor_def']

/-- `Math.round(x * 100) / 100` — round to 2 decimal places. -/
def round2 (x : ℚ) : ℚ := (jsRound (x * 100) : ℚ) / 100

theorem round2_gt (x : ℚ) : x - 1/200 < round2 x := by
  unfold round2
  rw [jsRound_eq_floor]
  have h : (x * 100 + 1/2) - 1 < (⌊x * 100 + 1/2⌋ : ℚ) := Int.sub_one_lt_floor _
  rw [lt_div_iff₀ (by norm_num : (0:ℚ) < 100)]
  linarith

theorem round2_le (x : ℚ) : round2 x ≤ x + 1/200 := by
  unfold round2
  rw [jsRound_eq_floor]
  have h : (⌊x * 100 + 1/2⌋ : ℚ) ≤ x * 100 + 1/2 := Int.floor_le _
  rw [div_le_iff₀ (by norm_num : (0:ℚ) < 100)]
  linarith

theorem round2_mono {x y : ℚ} (h : x ≤ y) : round2 x ≤ round2 y := by
  unfold round2
  rw [jsRound_eq_floor, jsRound_eq_floor]
  have h1 : ⌊x * 100 + 1/2⌋ ≤ ⌊y * 100 + 1/2⌋ := Int.floor_le_floor (by linarith)
  have h2 : ((⌊x * 100 + 1/2⌋ : ℤ) : ℚ) ≤ ((⌊y * 100 + 1/2⌋ : ℤ) : ℚ) := by
    exact_mod_cast h1
  linarith

/-! ## JS numbers with special values

`parseFloat` can produce `NaN` and `±Infinity` (e.g. from the strings
`"Infinity"` or `"1e999"`), and those values flow through the analyzer's
filter comparisons and arithmetic, so they are modelled explicitly.
The sign of zero is identified (`+0 = −0 = 0`); no verified claim
observes it. -/

/-- A JS number as produced by `parseFloat`. -/
inductive JsNum where
  | nan
  | posInf
  | negInf
  | val (q : ℚ)
  deriving DecidableEq, Repr

/-- `isNaN(x)`. -/
def JsNum.isNaN : JsNum → Bool
  | .nan => true
  | _ => false

/-- The JS comparison `x <= 0` (false for NaN and +Infinity). -/
def JsNum.leZero : JsNum → Bool
  | .nan => false
  | .posInf => false
  | .negInf => true
  | .val q => q ≤ 0

/-- The JS comparison `x >= q` against a finite bound (false for NaN and
−Infinity, true for +Infinity). -/
def JsNum.geQ : JsNum → ℚ → Bool
  | .nan, _ => false
  | .posInf, _ => true
  | .negInf, _ => false
  | .val v, q => q ≤ v

/-- The JS comparison `x <= y` (false whenever either side is NaN). -/
def JsNum.jsLe : JsNum → JsNum → Bool
  | .nan, _ => false
  | _, .nan => false
  | .negInf, _ => true
  | _, .posInf => true
  | .posInf, _ => false
  | .val a, .val b => a ≤ b
  | .val _, .negInf => false

/-- Whether the value is an ordinary finite number. -/
def JsNum.isFinite : JsNum → Bool
  | .val _ => true
  | _ => false

/-- The rational carried by a finite value (0 for the specials; only used
under a finiteness hypothesis). -/
def JsNum.toQ : JsNum → ℚ
  | .val q => q
  | _ => 0

/-- JS `+` on numbers: NaN is absorbing, `∞ + (−∞) = NaN`. -/
def JsNum.add : JsNum → JsNum → JsNum
  | .nan, _ => .nan
  | _, .nan => .nan
  | .posInf, .negInf => .nan
  | .negInf, .posInf => .nan
  | .posInf, _ => .posInf
  | _, .posInf => .posInf
  | .negInf, _ => .negInf
  | _, .negInf => .negInf
  | .val a, .val b => .val (a + b)

/-- JS `*` on numbers: NaN is absorbing, `±∞ × 0 = NaN`, sign rules otherwise. -/
def JsNum.mul : JsNum → JsNum → JsNum
  | .nan, _ => .nan
  | _, .nan => .nan
  | .posInf, .posInf => .posInf
  | .posInf, .negInf => .negInf
  | .negInf, .posInf => .negInf
  | .negInf, .negInf => .posInf
  | .posInf, .val b => if b = 0 then .nan else if 0 < b then .posInf else .negInf
  | .val a, .posInf => if a = 0 then .nan else if 0 < a then .posInf else .negInf
  | .negInf, .val b => if b = 0 then .nan else if 0 < b then .negInf else .posInf
  | .val a, .negInf => if a = 0 then .nan else if 0 < a then .negInf else .posInf
  | .val a, .val b => .val (a * b)

/-- JS `/` on numbers: NaN is absorbing, `±∞ / ±∞ = NaN`, `finite / ±∞ = 0`,
division of a nonzero finite by 0 gives a signed infinity, `0 / 0 = NaN`. -/
def JsNum.div : JsNum → JsNum → JsNum
  | .nan, _ => .nan
  | _, .nan => .nan
  | .posInf, .posInf => .nan
  | .posInf, .negInf => .nan
  | .negInf, .posInf => .nan
  | .negInf, .negInf => .nan
  | .posInf, .val b => if b < 0 then .negInf else .posInf
  | .negInf, .val b => if b < 0 then .posInf else .negInf
  | .val _, .posInf => .val 0
  | .val _, .negInf => .val 0
  | .val a, .val b =>
    if b = 0 then (if a = 0 then .nan else if 0 < a then .posInf else .negInf)
    else .val (a / b)

/-! ## Fee calculator (src/script.js lines 674-694, config lines 104-112)

A tier's `max` is `Option ℚ`, `none` standing for the JS `Infinity`
sentinel of the last tier (`amount <= Infinity` is always true). -/

structure FeeTier where
  max : Option ℚ
  percent : ℚ
  deriving DecidableEq, Repr

/-- `config.fees.tiers`. -/
def feeTiers : List FeeTier :=
  [⟨some 10000, 2.5⟩, ⟨some 50000, 2.0⟩, ⟨some 100000, 1.5⟩,
   ⟨some 500000, 1.0⟩, ⟨none, 0.75⟩]

/-- The loop guard `amount <= tier.max` (true for the Infinity sentinel). -/
def tierAllows (amount : ℚ) (t : FeeTier) : Bool :=
  match t.max with
  | none => true
  | some m => amount ≤ m

structure FeeResult where
  feePercent : ℚ
  feeAmount : ℚ
  netAmount : ℚ
  deriving DecidableEq, Repr

/-- Body of the `return` inside the tier loop. -/
def feeFromTier (amount : ℚ) (t : FeeTier) : FeeResult :=
  let feeAmount := amount * t.percent / 100
  ⟨t.percent, feeAmount, amount - feeAmount⟩

/-- `calculateFees`: first tier with `amount <= tier.max`, else fall back to
the last tier (unreachable with the Infinity sentinel). -/
def calculateFees (amount : ℚ) : FeeResult :=
  match feeTiers.find? (tierAllows amount) with
  | some t => feeFromTier amount t
  | none => feeFromTier amount (feeTiers.getLastD ⟨none, 0.75⟩)

/-- Piecewise characterization of the applied fee percent. -/
theorem calculateFees_feePercent (a : ℚ) :
    (calculateFees a).feePercent =
      if a ≤ 10000 then 2.5 else if a ≤ 50000 then 2.0
      else if a ≤ 100000 then 1.5 else if a ≤ 500000 then 1.0 else 0.75 := by
  unfold calculateFees feeTiers tierAllows
  by_cases h1 : a ≤ 10000 <;> by_cases h2 : a ≤ 50000 <;>
    by_cases h3 : a ≤ 100000 <;> by_cases h4 : a ≤ 500000 <;>
    simp [List.find?, h1, h2, h3, h4, feeFromTier]

theorem calculateFees_formulas (a : ℚ) :
    (calculateFees a).feeAmount = a * (calculateFees a).feePercent / 100 ∧
    (calculateFees a).netAmount = a - (calculateFees a).feeAmount := by
  unfold calculateFees
  cases h : feeTiers.find? (tierAllows a) <;> simp [feeFromTier]

/-! ## Pricing engine (src/script.js lines 697-845, `calculateCompetitiveRate`)

The two `Math.random()` draws are injected as parameters `r1` (the
competitive-band draw, line 706) and `r2` (the micro-adjustment draw on
the CoinGecko fallback rung, line 746), each ranging over `[0, 1)`. -/

inductive RateSource where
  /-- `"Binance P2P (Primary)"` -/
  | primaryP2P
  /-- `"CoinGecko (Fallback)"` -/
  | coinGeckoFallback
  /-- `"P2P (Forced Minimum)"` -/
  | forcedMinimum
  deriving DecidableEq, Repr

structure PricingResult where
  baseCost : ℚ
  targetRate : ℚ
  localRateMin : ℚ
  localRateMax : ℚ
  profitMargin : ℚ
  savingsVsMin : ℚ
  savingsVsMax : ℚ
  savingsPercent : ℚ
  usedCoinGeckoFallback : Bool
  rateSource : RateSource
  /-- whether the result carries the `warning` field of the forced-minimum path -/
  warning : Bool
  deriving DecidableEq, Repr

/-- `((finalRate - baseCost) / finalRate) * 100` — Profit Margin = (Revenue - Cost) / Revenue × 100. -/
def marginOf (baseCost finalRate : ℚ) : ℚ := (finalRate - baseCost) / finalRate * 100

/-- Lines 706-710: random competitive rate in the discount band, rounded to 2 decimals. -/
def primaryCandidate (r1 : ℚ) : ℚ :=
  round2 (discountRangeMin + r1 * (discountRangeMax - discountRangeMin))

/-- Lines 743-750: CoinGecko target rate = base × (1 + target%/100) plus jitter in ±0.05, rounded. -/
def cgTargetRate (cgBase r2 : ℚ) : ℚ :=
  round2 (cgBase * (1 + targetProfitMargin / 100) + (r2 * (1/10) - 1/20))

/-- Lines 764-765: forced minimum on the CoinGecko rung, `base × (1 + min%/100 + 0.005)` rounded. -/
def cgForcedRate (cgBase : ℚ) : ℚ :=
  round2 (cgBase * (1 + minProfitMargin / 100 + 1/200))

/-- Lines 795-796: forced minimum without CoinGecko, `base × (1 + min%/100 + 0.01)` rounded. -/
def forcedMinRate (baseCost : ℚ) : ℚ :=
  round2 (baseCost * (1 + minProfitMargin / 100 + 1/100))

/-- The common shape of the two fallback `return` objects (lines 773-784 and 805-817);
`savingsPercent` is unconditional there. -/
def fallbackResult (b fr : ℚ) (usedCG : Bool) (src : RateSource) (warn : Bool) : PricingResult :=
  { baseCost := b, targetRate := fr,
    localRateMin := localRateMin, localRateMax := localRateMax,
    profitMargin := marginOf b fr,
    savingsVsMin := localRateMin - fr, savingsVsMax := localRateMax - fr,
    savingsPercent := (localRateMin - fr) / localRateMin * 100,
    usedCoinGeckoFallback := usedCG, rateSource := src, warning := warn }

/-- `calculateCompetitiveRate(lowestInrRate, ngnRate, coinGeckoInr)` with the two
random draws injected.  Mirrors the fallback ladder of lines 697-845. -/
def calculateCompetitiveRate (lowestInrRate ngnRate : ℚ) (coinGeckoInr : Option ℚ)
    (r1 r2 : ℚ) : PricingResult :=
  -- Step 1: base cost (NGN per INR)
  let baseCostPerInr := ngnRate / lowestInrRate
  -- Steps 2-3: random candidate rate and its profit margin
  let finalRate := primaryCandidate r1
  -- Step 4: margin check and the fallback ladder
  if marginOf baseCostPerInr finalRate < minProfitMargin then
    match coinGeckoInr with
    | some cg =>
      if 0 < cg then
        -- CoinGecko fallback rung (lines 733-784)
        let cgBase := ngnRate / cg
        let fr := cgTargetRate cgBase r2
        let fr3 := if marginOf cgBase fr < minProfitMargin then cgForcedRate cgBase else fr
        fallbackResult cgBase fr3 true .coinGeckoFallback false
      else
        -- `coinGeckoInr && coinGeckoInr > 0` false: forced minimum (lines 786-817)
        fallbackResult baseCostPerInr (forcedMinRate baseCostPerInr) false .forcedMinimum true
    | none =>
        fallbackResult baseCostPerInr (forcedMinRate baseCostPerInr) false .forcedMinimum true
  else
    -- Step 5: profitable primary rate (lines 821-844); `savingsPercent` is conditional here
    { baseCost := baseCostPerInr, targetRate := finalRate,
      localRateMin := localRateMin, localRateMax := localRateMax,
      profitMargin := marginOf baseCostPerInr finalRate,
      savingsVsMin := localRateMin - finalRate, savingsVsMax := localRateMax - finalRate,
      savingsPercent := if 0 < localRateMin - finalRate
        then (localRateMin - finalRate) / localRateMin * 100 else 0,
      usedCoinGeckoFallback := false, rateSource := .primaryP2P, warning := false }

/-! ### Margin arithmetic -/

theorem round2_eq_of (x : ℚ) (n : ℤ) (h1 : (n : ℚ) ≤ x * 100 + 1/2)
    (h2 : x * 100 + 1/2 < (n : ℚ) + 1) : round2 x = (n : ℚ) / 100 := by
  unfold round2
  rw [jsRound_eq_floor]
  have h : ⌊x * 100 + 1/2⌋ = n := Int.floor_eq_iff.mpr ⟨h1, by exact_mod_cast h2⟩
  rw [h]

/-- `marginOf b f ≥ 0.8` once `125 b ≤ 124 f` (for positive `f`). -/
theorem marginOf_ge (b f : ℚ) (hf : 0 < f) (h : 125 * b ≤ 124 * f) :
    minProfitMargin ≤ marginOf b f := by
  unfold marginOf minProfitMargin
  rw [div_mul_eq_mul_div, le_div_iff₀ hf]
  norm_num
  linarith

/-- A margin at least the minimum means the rate is strictly above cost. -/
theorem lt_of_marginOf_ge (b f : ℚ) (hf : 0 < f) (h : minProfitMargin ≤ marginOf b f) :
    b < f := by
  unfold marginOf minProfitMargin at h
  rw [div_mul_eq_mul_div, le_div_iff₀ hf] at h
  nlinarith

/-- Entering a fallback rung (`margin < 0.8`) bounds the base cost from below. -/
theorem base_lt_of_marginOf_lt (b f : ℚ) (hf : 0 < f) (h : marginOf b f < minProfitMargin) :
    124 * f < 125 * b := by
  unfold marginOf minProfitMargin at h
  rw [div_mul_eq_mul_div, div_lt_iff₀ hf] at h
  nlinarith

/-- The rounded competitive-band candidate is at least 15.85 when `0 ≤ r1`. -/
theorem primaryCandidate_ge (r1 : ℚ) (hr1 : 0 ≤ r1) : discountRangeMin ≤ primaryCandidate r1 := by
  unfold primaryCandidate
  have h0 : round2 discountRangeMin = discountRangeMin := by
    rw [discountRangeMin, round2_eq_of _ 1585 (by norm_num) (by norm_num)]
    norm_num
  calc discountRangeMin = round2 discountRangeMin := h0.symm
    _ ≤ _ := round2_mono (by unfold discountRangeMin discountRangeMax; nlinarith)

/-- The forced-minimum rung without CoinGecko guarantees the minimum margin
and a rate above cost, for any base cost ≥ 1 (always true on entry). -/
theorem forcedMinRate_ok (b : ℚ) (hb : 1 ≤ b) :
    minProfitMargin ≤ marginOf b (forcedMinRate b) ∧ b < forcedMinRate b := by
  have hgt : b * (1 + minProfitMargin / 100 + 1/100) - 1/200 < forcedMinRate b :=
    round2_gt _
  rw [minProfitMargin] at hgt
  have hf : 0 < forcedMinRate b := by nlinarith
  have h125 : 125 * b ≤ 124 * forcedMinRate b := by nlinarith
  exact ⟨marginOf_ge _ _ hf h125, lt_of_marginOf_ge _ _ hf (marginOf_ge _ _ hf h125)⟩

/-- The forced-minimum step of the CoinGecko rung guarantees the minimum margin
and a rate above cost once the CoinGecko base cost is at least 1.02. -/
theorem cgForcedRate_ok (b : ℚ) (hb : 51/50 ≤ b) :
    minProfitMargin ≤ marginOf b (cgForcedRate b) ∧ b < cgForcedRate b := by
  have hgt : b * (1 + minProfitMargin / 100 + 1/200) - 1/200 < cgForcedRate b :=
    round2_gt _
  rw [minProfitMargin] at hgt
  have hf : 0 < cgForcedRate b := by nlinarith
  have h125 : 125 * b ≤ 124 * cgForcedRate b := by nlinarith
  exact ⟨marginOf_ge _ _ hf h125, lt_of_marginOf_ge _ _ hf (marginOf_ge _ _ hf h125)⟩

/-- The un-forced CoinGecko target rate is positive once the CoinGecko base
cost is at least 1.02 and `0 ≤ r2`. -/
theorem cgTargetRate_pos (b r2 : ℚ) (hb : 51/50 ≤ b) (hr2 : 0 ≤ r2) :
    0 < cgTargetRate b r2 := by
  have hgt : b * (1 + targetProfitMargin / 100) + (r2 * (1/10) - 1/20) - 1/200 <
      cgTargetRate b r2 := round2_gt _
  rw [targetProfitMargin] at hgt
  nlinarith

/-! ### Claim C1 -/

/-- C1 (counterexample): the claimed invariant `profitMargin ≥ minProfitMargin − 1e-6`
(and never negative, and never priced below cost) fails on a valid input.
With `lowestInrRate = 60`, `ngnRate = 1020` (both strictly positive), reference
rate `coinGeckoInr = 10000` (strictly positive), and random draws `r1 = 0`,
`r2 = 1/2`, the engine takes the CoinGecko fallback rung, rounds the forced
rate `0.102 × 1.013 = 0.103326` down to `0.10`, and returns
`profitMargin = −2` with `targetRate = 0.10 <` `baseCost = 0.102`. -/
theorem C1_margin_counterexample :
    (calculateCompetitiveRate 60 1020 (some 10000) 0 (1/2)).profitMargin <
        minProfitMargin - 1/1000000 ∧
    (calculateCompetitiveRate 60 1020 (some 10000) 0 (1/2)).profitMargin < 0 ∧
    (calculateCompetitiveRate 60 1020 (some 10000) 0 (1/2)).targetRate <
      (calculateCompetitiveRate 60 1020 (some 10000) 0 (1/2)).baseCost := by
  have e1 : primaryCandidate 0 = 317/20 := by
    unfold primaryCandidate discountRangeMin discountRangeMax
    rw [round2_eq_of _ 1585 (by norm_num) (by norm_num)]
    norm_num
  have e2 : cgTargetRate (1020/10000) (1/2) = 1/10 := by
    unfold cgTargetRate targetProfitMargin
    rw [round2_eq_of _ 10 (by norm_num) (by norm_num)]
    norm_num
  have e3 : cgForcedRate (1020/10000) = 1/10 := by
    unfold cgForcedRate minProfitMargin
    rw [round2_eq_of _ 10 (by norm_num) (by norm_num)]
    norm_num
  have hm1 : marginOf (1020/60) (primaryCandidate 0) < minProfitMargin := by
    rw [e1]; unfold marginOf minProfitMargin; norm_num
  have hm2 : marginOf (1020/10000) (cgTargetRate (1020/10000) (1/2)) < minProfitMargin := by
    rw [e2]; unfold marginOf minProfitMargin; norm_num
  simp only [calculateCompetitiveRate]
  rw [if_pos hm1]
  rw [if_pos (by norm_num : (0:ℚ) < 10000), if_pos hm2, e3]
  unfold fallbackResult marginOf minProfitMargin
  norm_num

/-- C1 (amended): the margin invariant holds on every rung of the fallback
ladder — `profitMargin ≥ minProfitMargin` exactly (hence never negative) and
`targetRate > baseCost` — for every valid input in which the reference-derived
base cost `ngnRate / coinGeckoInr`, when the CoinGecko rung can be taken, is at
least 1.02, so that the 2-decimal rounding (≤ 0.005) cannot eat the forced
margin.  (On the primary and no-CoinGecko rungs no extra hypothesis is needed:
entry into the forced rung already bounds the base cost below by ≈ 15.72.) -/
theorem C1_margin_amended (lowestInrRate ngnRate : ℚ) (coinGeckoInr : Option ℚ) (r1 r2 : ℚ)
    (hL : 0 < lowestInrRate) (hN : 0 < ngnRate)
    (hr1 : 0 ≤ r1) (hr1' : r1 < 1) (hr2 : 0 ≤ r2) (hr2' : r2 < 1)
    (hcg : ∀ c, coinGeckoInr = some c → 0 < c → 51/50 ≤ ngnRate / c) :
    minProfitMargin ≤
        (calculateCompetitiveRate lowestInrRate ngnRate coinGeckoInr r1 r2).profitMargin ∧
    (calculateCompetitiveRate lowestInrRate ngnRate coinGeckoInr r1 r2).baseCost <
      (calculateCompetitiveRate lowestInrRate ngnRate coinGeckoInr r1 r2).targetRate := by
  have hf0 : 0 < primaryCandidate r1 := by
    have := primaryCandidate_ge r1 hr1
    rw [discountRangeMin] at this
    linarith
  simp only [calculateCompetitiveRate]
  by_cases hm : marginOf (ngnRate / lowestInrRate) (primaryCandidate r1) < minProfitMargin
  · rw [if_pos hm]
    have hb1 : 1 ≤ ngnRate / lowestInrRate := by
      have h124 := base_lt_of_marginOf_lt _ _ hf0 hm
      have h1585 := primaryCandidate_ge r1 hr1
      rw [discountRangeMin] at h1585
      nlinarith
    cases coinGeckoInr with
    | none =>
      simpa [fallbackResult] using forcedMinRate_ok _ hb1
    | some c =>
      dsimp only
      by_cases hc : 0 < c
      · rw [if_pos hc]
        have hbc : 51/50 ≤ ngnRate / c := hcg c rfl hc
        by_cases hm2 : marginOf (ngnRate / c) (cgTargetRate (ngnRate / c) r2) < minProfitMargin
        · rw [if_pos hm2]
          simpa [fallbackResult] using cgForcedRate_ok _ hbc
        · rw [if_neg hm2]
          push_neg at hm2
          have hfr : 0 < cgTargetRate (ngnRate / c) r2 := cgTargetRate_pos _ _ hbc hr2
          exact ⟨by simpa [fallbackResult] using hm2,
            by simpa [fallbackResult] using lt_of_marginOf_ge _ _ hfr hm2⟩
      · rw [if_neg hc]
        simpa [fallbackResult] using forcedMinRate_ok _ hb1
  · rw [if_neg hm]
    push_neg at hm
    exact ⟨hm, lt_of_marginOf_ge _ _ hf0 hm⟩

/-- C1 (witness): the amended theorem applied at the concrete valid input
`lowestInrRate = 80`, `ngnRate = 1600`, no reference rate, draws 0. -/
theorem C1_margin_amended_witness :
    (0:ℚ) < 80 ∧ (0:ℚ) < 1600 ∧
    (minProfitMargin ≤ (calculateCompetitiveRate 80 1600 none 0 0).profitMargin ∧
      (calculateCompetitiveRate 80 1600 none 0 0).baseCost <
        (calculateCompetitiveRate 80 1600 none 0 0).targetRate) :=
  ⟨by norm_num, by norm_num,
    C1_margin_amended 80 1600 none 0 0 (by norm_num) (by norm_num) (by norm_num)
      (by norm_num) (by norm_num) (by norm_num) (fun c h => nomatch h)⟩

/-! ## P2P analyzer (src/script.js lines 563-672, `analyzeP2P`)

Raw order-book items are modelled at the granularity the parser observes:
presence of the `adv`/`advertiser` blocks, and the results of the JS numeric
conversions (`parseFloat` returning NaN is `none`).  String-only display
fields (`nickname`, `profileLink`, the `completion.toFixed(1)+"%"` rendering
of `topAds`) are omitted; `topAds` keeps the numeric fields of the top-5 ads. -/

/-- The `adv` block of one raw item: the `parseFloat(adv.price)` result
(`none` = NaN; a price parsing to `±Infinity` behaves exactly like an
out-of-band rational at the only places a price is consumed before the
`70 ≤ price ≤ 120` filter, so finite-or-NaN is behavior-preserving there),
and the full `parseFloat(adv.surplusAmount || adv.tradableQuantity || 0)`
result (`qtyRaw : JsNum` — a quantity can be `+Infinity` and then survives
every filter and reaches the weighted-average arithmetic). -/
structure RawAdv where
  price : Option ℚ
  qtyRaw : JsNum
  deriving DecidableEq, Repr

/-- The `advertiser` block: `parseInt(seller.monthOrderCount)` and
`parseFloat(seller.monthFinishRate)` results before the `|| 0` defaulting
(`none` = NaN). -/
structure RawSeller where
  monthOrderCount : Option ℤ
  monthFinishRate : Option ℚ
  deriving DecidableEq, Repr

/-- One entry of `data.data`; a missing `adv`/`advertiser` block is `none`. -/
structure RawItem where
  adv : Option RawAdv
  advertiser : Option RawSeller
  deriving DecidableEq, Repr

/-- A parsed ad (lines 591-598); `qty` keeps the full JS number, since a
`+Infinity` quantity survives the `isNaN` guard and the quality filters. -/
structure Ad where
  price : ℚ
  qty : JsNum
  trades : ℤ
  completion : ℚ
  deriving DecidableEq, Repr

/-- The per-item parse of lines 572-603: skip (`none`) on a missing block,
NaN or non-positive price, or NaN quantity; default trades/completion to 0;
normalize a completion in (0, 1] to a percentage. -/
def parseAd (it : RawItem) : Option Ad :=
  match it.adv, it.advertiser with
  | some adv, some seller =>
    match adv.price with
    | none => none
    | some price =>
      if price ≤ 0 then none
      else
        if adv.qtyRaw.isNaN then none
        else
          let qty := adv.qtyRaw
          let trades := seller.monthOrderCount.getD 0
          let c0 := seller.monthFinishRate.getD 0
          let completion := if 0 < c0 ∧ c0 ≤ 1 then c0 * 100 else c0
          some ⟨price, qty, trades, completion⟩
  | _, _ => none

def parseAds (items : List RawItem) : List Ad := items.filterMap parseAd

/-- A quality-filter configuration (`config.filters.*`, lines 113-128). -/
structure FilterCfg where
  minTrades : ℤ
  minCompletion : ℚ
  minQty : ℚ
  minPrice : ℚ
  maxPrice : ℚ
  deriving DecidableEq, Repr

def strictFilter : FilterCfg := ⟨300, 90, 500, 70, 120⟩

def relaxedFilter : FilterCfg := ⟨100, 85, 100, 70, 120⟩

/-- The filter predicate of lines 609-618 / 623-631; the quantity check
`a.qty >= f.minQty` uses the JS order (so `+Infinity` passes). -/
def passes (f : FilterCfg) (a : Ad) : Bool :=
  f.minTrades ≤ a.trades ∧ f.minCompletion ≤ a.completion ∧
    a.qty.geQ f.minQty ∧ f.minPrice ≤ a.price ∧ a.price ≤ f.maxPrice

/-- `filtered.sort((a, b) => a.price - b.price)` — ascending by price
(insertion sort; the source's comparator sort agrees up to stability,
which no verified claim depends on). -/
def insertByPrice (a : Ad) : List Ad → List Ad
  | [] => [a]
  | b :: t => if a.price ≤ b.price then a :: b :: t else b :: insertByPrice a t

def sortByPrice : List Ad → List Ad
  | [] => []
  | a :: t => insertByPrice a (sortByPrice t)

theorem mem_insertByPrice {x a : Ad} : ∀ {l : List Ad},
    x ∈ insertByPrice a l ↔ x = a ∨ x ∈ l := by
  intro l
  induction l with
  | nil => simp [insertByPrice]
  | cons b t ih =>
    by_cases h : a.price ≤ b.price
    · simp [insertByPrice, h]
    · simp [insertByPrice, h, ih]
      tauto

theorem mem_sortByPrice {x : Ad} : ∀ {l : List Ad}, x ∈ sortByPrice l ↔ x ∈ l := by
  intro l
  induction l with
  | nil => simp [sortByPrice]
  | cons a t ih => simp [sortByPrice, mem_insertByPrice, ih]

theorem sortByPrice_eq_nil {l : List Ad} : sortByPrice l = [] ↔ l = [] := by
  cases l with
  | nil => simp [sortByPrice]
  | cons a t =>
    simp only [sortByPrice]
    constructor
    · intro h
      have : a ∈ insertByPrice a (sortByPrice t) := mem_insertByPrice.mpr (Or.inl rfl)
      rw [h] at this
      exact absurd this (List.not_mem_nil a)
    · intro h
      exact absurd h (List.cons_ne_nil a t)

/-- Analyzer output (lines 648-663).  `weightedAvg` is a full JS number:
with a `+Infinity` quantity among the top 5 the two `reduce`s produce
`totalWeight = Infinity` and `weightedAvg = NaN`.  Prices of filter
survivors are finite (bounded by 120), so the price-derived fields stay
rational. -/
structure P2PStats where
  totalAds : ℕ
  goodAds : ℕ
  lowestRate : ℚ
  simpleAvg : ℚ
  weightedAvg : JsNum
  topAds : List Ad
  deriving DecidableEq, Repr

/-- The statistics block of lines 638-663 over the filtered list.
`lowestRate` is `top5[0].price` (the list is nonempty at every call site,
so the `headD` default is never taken); the two `reduce`s over qty are JS
left folds from 0 in JS arithmetic. -/
def mkStats (totalCount : ℕ) (filtered : List Ad) : P2PStats :=
  let sorted := sortByPrice filtered
  let top5 := sorted.take 5
  let lowestRate := (top5.map Ad.price).headD 0
  let simpleAvg := (top5.map Ad.price).sum / (top5.length : ℚ)
  let totalWeight := top5.foldl (fun s a => s.add a.qty) (JsNum.val 0)
  let weightedAvg :=
    top5.foldl (fun s a => s.add (((JsNum.val a.price).mul a.qty).div totalWeight))
      (JsNum.val 0)
  { totalAds := totalCount, goodAds := filtered.length, lowestRate := lowestRate,
    simpleAvg := simpleAvg, weightedAvg := weightedAvg, topAds := top5 }

/-- The analyzer's typed failures (`ExternalAPIError` messages). -/
inductive AnalyzeError where
  /-- "Invalid P2P data for analysis" -/
  | invalidP2PData
  /-- "No valid P2P ads found" -/
  | noValidAds
  /-- "No P2P ads meet quality criteria" -/
  | noQualityAds
  deriving DecidableEq, Repr

/-- `analyzeP2P(data)`; `none` stands for a missing/invalid `data.data` array.
The strict filter is tried first, the relaxed filter only when it is empty
(lines 605-636). -/
def analyzeP2P (data : Option (List RawItem)) : Except AnalyzeError P2PStats :=
  match data with
  | none => .error .invalidP2PData
  | some items =>
    if items.isEmpty then .error .invalidP2PData
    else
      let ads := parseAds items
      if ads.isEmpty then .error .noValidAds
      else
        let strictFiltered := ads.filter (passes strictFilter)
        let filtered := if strictFiltered.isEmpty then ads.filter (passes relaxedFilter)
          else strictFiltered
        if filtered.isEmpty then .error .noQualityAds
        else .ok (mkStats ads.length filtered)

/-! ### List helper lemmas for the analyzer -/

theorem sum_map_div (l : List Ad) (f : Ad → ℚ) (c : ℚ) :
    (l.map (fun a => f a / c)).sum = (l.map f).sum / c := by
  induction l with
  | nil => simp
  | cons a t ih => simp [ih, add_div]

theorem sum_map_mul_const (l : List Ad) (f : Ad → ℚ) (c : ℚ) :
    (l.map (fun a => c * f a)).sum = c * (l.map f).sum := by
  induction l with
  | nil => simp
  | cons a t ih => simp [ih, mul_add]

theorem sum_map_le (l : List Ad) (f g : Ad → ℚ) (h : ∀ a ∈ l, f a ≤ g a) :
    (l.map f).sum ≤ (l.map g).sum := by
  induction l with
  | nil => simp
  | cons a t ih =>
    simp only [List.map_cons, List.sum_cons]
    have h1 := h a (List.mem_cons_self a t)
    have h2 := ih (fun b hb => h b (List.mem_cons_of_mem a hb))
    linarith

theorem exists_min_price : ∀ (l : List Ad), l ≠ [] →
    ∃ m ∈ l, ∀ b ∈ l, m.price ≤ b.price := by
  intro l
  induction l with
  | nil => intro h; exact absurd rfl h
  | cons a t ih =>
    intro _
    cases t with
    | nil => exact ⟨a, List.mem_cons_self a [], by simp⟩
    | cons b u =>
      obtain ⟨m, hm, hmin⟩ := ih (List.cons_ne_nil b u)
      by_cases hc : a.price ≤ m.price
      · refine ⟨a, List.mem_cons_self _ _, ?_⟩
        intro x hx
        rcases List.mem_cons.mp hx with h1 | h2
        · exact h1 ▸ le_rfl
        · exact le_trans hc (hmin x h2)
      · refine ⟨m, List.mem_cons_of_mem a hm, ?_⟩
        intro x hx
        rcases List.mem_cons.mp hx with h1 | h2
        · exact h1 ▸ le_of_not_le hc
        · exact hmin x h2

theorem exists_max_price : ∀ (l : List Ad), l ≠ [] →
    ∃ m ∈ l, ∀ b ∈ l, b.price ≤ m.price := by
  intro l
  induction l with
  | nil => intro h; exact absurd rfl h
  | cons a t ih =>
    intro _
    cases t with
    | nil => exact ⟨a, List.mem_cons_self a [], by simp⟩
    | cons b u =>
      obtain ⟨m, hm, hmax⟩ := ih (List.cons_ne_nil b u)
      by_cases hc : m.price ≤ a.price
      · refine ⟨a, List.mem_cons_self _ _, ?_⟩
        intro x hx
        rcases List.mem_cons.mp hx with h1 | h2
        · exact h1 ▸ le_rfl
        · exact le_trans (hmax x h2) hc
      · refine ⟨m, List.mem_cons_of_mem a hm, ?_⟩
        intro x hx
        rcases List.mem_cons.mp hx with h1 | h2
        · exact h1 ▸ le_of_not_le hc
        · exact hmax x h2

/-- Inversion: a successful analysis comes from a nonempty filtered list whose
members passed the strict or the relaxed filter. -/
theorem analyzeP2P_ok_inv {items : List RawItem} {s : P2PStats}
    (h : analyzeP2P (some items) = .ok s) :
    ∃ filtered, filtered ≠ [] ∧
      (∀ a ∈ filtered, passes strictFilter a ∨ passes relaxedFilter a) ∧
      s = mkStats (parseAds items).length filtered := by
  simp only [analyzeP2P] at h
  by_cases h1 : items.isEmpty
  · simp [h1] at h
  · simp only [h1, Bool.false_eq_true, if_false] at h
    by_cases h2 : (parseAds items).isEmpty
    · simp [h2] at h
    · simp only [h2, Bool.false_eq_true, if_false] at h
      by_cases h3 : ((parseAds items).filter (passes strictFilter)).isEmpty
      · simp only [h3, if_true] at h
        by_cases h4 : ((parseAds items).filter (passes relaxedFilter)).isEmpty
        · simp [h4] at h
        · simp only [h4, Bool.false_eq_true, if_false, Except.ok.injEq] at h
          refine ⟨_, by simpa [List.isEmpty_iff] using h4, ?_, h.symm⟩
          intro a ha
          exact Or.inr (List.mem_filter.mp ha).2
      · simp only [h3, Bool.false_eq_true, if_false, Except.ok.injEq] at h
        refine ⟨_, by simpa [List.isEmpty_iff] using h3, ?_, h.symm⟩
        intro a ha
        exact Or.inl (List.mem_filter.mp ha).2

/-! ### Claim C3 -/

/-- C3: for every raw payload with at least one parseable entry, `analyzeP2P`
either returns a result whose `goodAds` count is ≥ 1 — equal to the strict
filter's count when that is nonempty, otherwise the relaxed filter's count —
or fails with the typed "No P2P ads meet quality criteria" error; it never
returns a result with zero quality ads or one built from unfiltered ads. -/
theorem C3_quality_or_error (items : List RawItem) (h : parseAds items ≠ []) :
    (∃ s, analyzeP2P (some items) = .ok s ∧ 1 ≤ s.goodAds ∧
        s.goodAds = (if ((parseAds items).filter (passes strictFilter)).isEmpty
          then ((parseAds items).filter (passes relaxedFilter)).length
          else ((parseAds items).filter (passes strictFilter)).length)) ∨
      analyzeP2P (some items) = .error .noQualityAds := by
  have hitems : items ≠ [] := by
    intro he
    rw [he] at h
    exact h rfl
  have hidef : items.isEmpty = false := by simpa [List.isEmpty_iff] using hitems
  have hadef : (parseAds items).isEmpty = false := by simpa [List.isEmpty_iff] using h
  by_cases hs : ((parseAds items).filter (passes strictFilter)).isEmpty
  · by_cases hr : ((parseAds items).filter (passes relaxedFilter)).isEmpty
    · right
      simp [analyzeP2P, hidef, hadef, hs, hr]
    · left
      have heq : analyzeP2P (some items) =
          .ok (mkStats (parseAds items).length
            ((parseAds items).filter (passes relaxedFilter))) := by
        simp [analyzeP2P, hidef, hadef, hs, hr]
      have hne : ((parseAds items).filter (passes relaxedFilter)) ≠ [] := by
        simpa [List.isEmpty_iff] using hr
      refine ⟨_, heq, ?_, ?_⟩
      · simp only [mkStats]
        exact Nat.one_le_iff_ne_zero.mpr (by simpa [List.length_eq_zero] using hne)
      · simp [mkStats, hs]
  · left
    have heq : analyzeP2P (some items) =
        .ok (mkStats (parseAds items).length
          ((parseAds items).filter (passes strictFilter))) := by
      simp [analyzeP2P, hidef, hadef, hs]
    have hne : ((parseAds items).filter (passes strictFilter)) ≠ [] := by
      simpa [List.isEmpty_iff] using hs
    refine ⟨_, heq, ?_, ?_⟩
    · simp only [mkStats]
      exact Nat.one_le_iff_ne_zero.mpr (by simpa [List.length_eq_zero] using hne)
    · simp [mkStats, hs]

/-- A concrete raw order-book item whose single ad parses and passes the
strict filter: price 75, quantity 600, 400 monthly trades, 95% completion. -/
def sampleItem : RawItem :=
  ⟨some ⟨some 75, .val 600⟩, some ⟨some 400, some 95⟩⟩

/-- C3 (witness): the theorem applied to the one-item payload `[sampleItem]`. -/
theorem C3_quality_or_error_witness :
    parseAds [sampleItem] ≠ [] ∧
    ((∃ s, analyzeP2P (some [sampleItem]) = .ok s ∧ 1 ≤ s.goodAds ∧
        s.goodAds = (if ((parseAds [sampleItem]).filter (passes strictFilter)).isEmpty
          then ((parseAds [sampleItem]).filter (passes relaxedFilter)).length
          else ((parseAds [sampleItem]).filter (passes strictFilter)).length)) ∨
      analyzeP2P (some [sampleItem]) = .error .noQualityAds) :=
  ⟨by decide, C3_quality_or_error [sampleItem] (by decide)⟩

/-! ### Claim C6 -/

/-- The qty-sum `reduce` over ads with finite quantities is the rational sum. -/
theorem foldl_add_qty_val (l : List Ad) :
    ∀ w : ℚ, (∀ a ∈ l, a.qty.isFinite = true) →
    l.foldl (fun s a => s.add a.qty) (JsNum.val w) =
      .val (w + (l.map (fun a => a.qty.toQ)).sum) := by
  induction l with
  | nil => intro w _; simp
  | cons a t ih =>
    intro w hfin
    obtain ⟨q, hq⟩ : ∃ q, a.qty = .val q := by
      have := hfin a (List.mem_cons_self a t)
      cases hv : a.qty <;> simp_all [JsNum.isFinite]
    rw [List.foldl_cons]
    have hstep : (JsNum.val w).add a.qty = JsNum.val (w + q) := by rw [hq]; rfl
    rw [hstep, ih (w + q) (fun b hb => hfin b (List.mem_cons_of_mem a hb)),
      List.map_cons, List.sum_cons, hq]
    simp only [JsNum.toQ]
    congr 1
    ring

/-- The weighted-average `reduce` over ads with finite quantities and a
finite nonzero total weight is the rational sum of `price × qty / W`. -/
theorem foldl_wavg_val (W : ℚ) (hW : W ≠ 0) (l : List Ad) :
    ∀ w : ℚ, (∀ a ∈ l, a.qty.isFinite = true) →
    l.foldl (fun s a => s.add (((JsNum.val a.price).mul a.qty).div (.val W)))
        (JsNum.val w) =
      .val (w + (l.map (fun a => a.price * a.qty.toQ / W)).sum) := by
  induction l with
  | nil => intro w _; simp
  | cons a t ih =>
    intro w hfin
    obtain ⟨q, hq⟩ : ∃ q, a.qty = .val q := by
      have := hfin a (List.mem_cons_self a t)
      cases hv : a.qty <;> simp_all [JsNum.isFinite]
    rw [List.foldl_cons]
    have hterm : ((JsNum.val a.price).mul a.qty).div (.val W) =
        JsNum.val (a.price * q / W) := by
      rw [hq]
      show JsNum.div (JsNum.val (a.price * q)) (JsNum.val W) = _
      simp only [JsNum.div]
      rw [if_neg hW]
    have hstep : (JsNum.val w).add (((JsNum.val a.price).mul a.qty).div (.val W)) =
        JsNum.val (w + a.price * q / W) := by rw [hterm]; rfl
    rw [hstep, ih (w + a.price * q / W) (fun b hb => hfin b (List.mem_cons_of_mem a hb)),
      List.map_cons, List.sum_cons, hq]
    simp only [JsNum.toQ]
    congr 1
    ring

/-- The one ad of the C6 counterexample payload: price 75, an infinite
quantity (`surplusAmount` parsing to `+Infinity`, e.g. the string `"1e999"`),
400 trades, 95% completion. -/
def infQtyItem : RawItem :=
  ⟨some ⟨some 75, .posInf⟩, some ⟨some 400, some 95⟩⟩

/-- C6 (counterexample): a listing with an infinite quantity passes the
strict filter (`Infinity >= 500` is true in JS), so the analyzer succeeds,
but `totalWeight` is `Infinity` and the weighted average is `NaN`
(`75 × Infinity / Infinity`), which lies between no prices at all: both JS
comparisons against the single top-5 price 75 are false.  The claimed
min/max bounds therefore fail on the program. -/
theorem C6_vwap_counterexample :
    analyzeP2P (some [infQtyItem]) = .ok (mkStats 1 [⟨75, .posInf, 400, 95⟩]) ∧
    (mkStats 1 [⟨75, .posInf, 400, 95⟩]).topAds = [⟨75, .posInf, 400, 95⟩] ∧
    (mkStats 1 [⟨75, .posInf, 400, 95⟩]).weightedAvg = .nan ∧
    JsNum.jsLe (.val 75) (mkStats 1 [⟨75, .posInf, 400, 95⟩]).weightedAvg = false ∧
    JsNum.jsLe (mkStats 1 [⟨75, .posInf, 400, 95⟩]).weightedAvg (.val 75) = false :=
  ⟨rfl, rfl, rfl, rfl, rfl⟩

/-- C6 (amended): for every successful analyzer result *all of whose top-5
quantities are finite*, the volume-weighted average is a finite rational
lying between the minimum and maximum price of the top-5 ads (stated via a
minimizing and a maximizing member), the total weight is strictly positive,
and every top-5 ad's quantity is at least the configured positive
minimum-quantity threshold (the relaxed filter's 100, the weaker of the two
rungs' thresholds; strict survivors satisfy 500 ≥ 100).  Without the
finiteness restriction the bounds fail: an ad whose quantity parses to
`+Infinity` survives the filters and drives the weighted average to NaN. -/
theorem C6_vwap_bounds (items : List RawItem) (s : P2PStats)
    (h : analyzeP2P (some items) = .ok s)
    (hfin : ∀ a ∈ s.topAds, a.qty.isFinite = true) :
    s.topAds ≠ [] ∧
    (∀ a ∈ s.topAds, relaxedFilter.minQty ≤ a.qty.toQ) ∧
    0 < (s.topAds.map (fun a => a.qty.toQ)).sum ∧
    (∃ w, s.weightedAvg = .val w ∧
      (∃ lo ∈ s.topAds, lo.price ≤ w) ∧ (∃ hi ∈ s.topAds, w ≤ hi.price)) := by
  obtain ⟨filtered, hne, hpass, hs⟩ := analyzeP2P_ok_inv h
  subst hs
  simp only [mkStats] at hfin ⊢
  set top5 := (sortByPrice filtered).take 5 with htop5
  have htne : top5 ≠ [] := by
    rw [htop5]
    simp only [ne_eq, List.take_eq_nil_iff]
    push_neg
    exact ⟨by norm_num, fun hc => hne (sortByPrice_eq_nil.mp hc)⟩
  have hmem : ∀ a ∈ top5, a ∈ filtered := by
    intro a ha
    exact mem_sortByPrice.mp (List.take_subset _ _ ha)
  have hqty : ∀ a ∈ top5, (100:ℚ) ≤ a.qty.toQ := by
    intro a ha
    obtain ⟨q, hq⟩ : ∃ q, a.qty = .val q := by
      have := hfin a ha
      cases hv : a.qty <;> simp_all [JsNum.isFinite]
    rcases hpass a (hmem a ha) with hp | hp <;>
      · simp only [passes, strictFilter, relaxedFilter, hq, JsNum.geQ,
          decide_eq_true_eq] at hp
        rw [hq]
        simp only [JsNum.toQ]
        linarith [hp.2.2.1]
  have hW : 0 < (top5.map (fun a => a.qty.toQ)).sum := by
    apply List.sum_pos
    · intro x hx
      obtain ⟨a, ha, rfl⟩ := List.mem_map.mp hx
      linarith [hqty a ha]
    · simpa using htne
  set W := (top5.map (fun a => a.qty.toQ)).sum with hWdef
  have hsum : top5.foldl (fun s a => s.add a.qty) (JsNum.val 0) = .val W := by
    rw [foldl_add_qty_val top5 0 hfin, zero_add]
  have havg :
      top5.foldl (fun s a => s.add (((JsNum.val a.price).mul a.qty).div
          (top5.foldl (fun s a => s.add a.qty) (JsNum.val 0)))) (JsNum.val 0) =
        .val ((top5.map (fun a => a.price * a.qty.toQ / W)).sum) := by
    rw [hsum, foldl_wavg_val W (ne_of_gt hW) top5 0 hfin, zero_add]
  refine ⟨htne, fun a ha => by simpa [relaxedFilter] using hqty a ha, hW,
    (top5.map (fun a => a.price * a.qty.toQ / W)).sum, havg, ?_, ?_⟩
  · obtain ⟨lo, hlo, hmin⟩ := exists_min_price top5 htne
    refine ⟨lo, hlo, ?_⟩
    rw [sum_map_div, le_div_iff₀ hW]
    calc lo.price * W
        = (top5.map (fun a => lo.price * a.qty.toQ)).sum := (sum_map_mul_const _ _ _).symm
      _ ≤ (top5.map (fun a => a.price * a.qty.toQ)).sum := by
          apply sum_map_le
          intro a ha
          exact mul_le_mul_of_nonneg_right (hmin a ha) (by linarith [hqty a ha])
  · obtain ⟨hi, hhi, hmax⟩ := exists_max_price top5 htne
    refine ⟨hi, hhi, ?_⟩
    rw [sum_map_div, div_le_iff₀ hW]
    calc (top5.map (fun a => a.price * a.qty.toQ)).sum
        ≤ (top5.map (fun a => hi.price * a.qty.toQ)).sum := by
          apply sum_map_le
          intro a ha
          exact mul_le_mul_of_nonneg_right (hmax a ha) (by linarith [hqty a ha])
      _ = hi.price * W := sum_map_mul_const _ _ _

/-- C6 (witness): the amended theorem applied to the concrete successful run
on `[sampleItem]`, whose single quantity (600) is finite. -/
theorem C6_vwap_bounds_witness :
    ∃ s, analyzeP2P (some [sampleItem]) = .ok s ∧
      (∀ a ∈ s.topAds, a.qty.isFinite = true) ∧
      (s.topAds ≠ [] ∧
       (∀ a ∈ s.topAds, relaxedFilter.minQty ≤ a.qty.toQ) ∧
       0 < (s.topAds.map (fun a => a.qty.toQ)).sum ∧
       (∃ w, s.weightedAvg = .val w ∧
         (∃ lo ∈ s.topAds, lo.price ≤ w) ∧ (∃ hi ∈ s.topAds, w ≤ hi.price))) := by
  have h : analyzeP2P (some [sampleItem]) =
      .ok (mkStats 1 [⟨75, .val 600, 400, 95⟩]) := by rfl
  have hfin : ∀ a ∈ (mkStats 1 [⟨75, .val 600, 400, 95⟩]).topAds,
      a.qty.isFinite = true := by decide
  exact ⟨_, h, hfin, C6_vwap_bounds [sampleItem] _ h hfin⟩

/-! ## Spot fetcher (src/script.js lines 457-482 / src/unnamed/part_002 lines 262-287,
`fetchBinanceSpot`)

The decoded payload's `price` field is a raw JS value: its truthiness (the
`!data.price` check) and its `parseFloat` result (a `JsNum`) are modelled
separately. -/

/-- A raw field value: JS truthiness of the raw (string) value, and its
`parseFloat` result. -/
structure RawField where
  truthy : Bool
  parsed : JsNum
  deriving DecidableEq, Repr

/-- The decoded spot payload; `price := none` models a missing field
(`undefined`, which is falsy). -/
structure SpotPayload where
  price : Option RawField
  deriving DecidableEq, Repr

/-- The fetch-level typed failures (`ExternalAPIError` messages). -/
inductive FetchError where
  /-- "Invalid Binance Spot response" -/
  | invalidSpotResponse
  /-- "Invalid price in Binance Spot response" -/
  | invalidSpotPrice
  deriving DecidableEq, Repr

/-- The decode-and-validate tail of `fetchBinanceSpot` (lines 467-477), as a
function of the decoded payload (`none` = falsy `data`). -/
def fetchBinanceSpot (data : Option SpotPayload) : Except FetchError JsNum :=
  match data with
  | none => .error .invalidSpotResponse
  | some d =>
    match d.price with
    | none => .error .invalidSpotResponse
    | some f =>
      if !f.truthy then .error .invalidSpotResponse
      else
        let price := f.parsed
        if price.isNaN || price.leZero then .error .invalidSpotPrice
        else .ok price

/-! ### Claim C9 -/

/-- C9 (counterexample): a payload whose `price` field parses to `+Infinity`
(e.g. the string `"Infinity"`) is truthy, not NaN, and not `<= 0`, so
`fetchBinanceSpot` returns it successfully — a non-finite value — instead of
raising the typed error; finiteness is never validated. -/
theorem C9_spot_counterexample :
    fetchBinanceSpot (some ⟨some ⟨true, .posInf⟩⟩) = .ok .posInf ∧
    JsNum.isFinite .posInf = false := by
  constructor
  · rfl
  · rfl

/-- C9 (amended): for every decoded payload, `fetchBinanceSpot` either
returns a value that is present, non-NaN and strictly positive in the JS
order — that is, `+Infinity` or a finite strictly positive number (finiteness
is not validated) — or fails with a typed `FetchError`; it never returns NaN,
a non-positive number, or crashes. -/
theorem C9_spot_amended (data : Option SpotPayload) :
    (∃ v, fetchBinanceSpot data = .ok v ∧ v.isNaN = false ∧
        (v = .posInf ∨ ∃ q, v = .val q ∧ 0 < q)) ∨
      (∃ e, fetchBinanceSpot data = .error e) := by
  match data with
  | none => exact Or.inr ⟨.invalidSpotResponse, rfl⟩
  | some d =>
    match hp : d.price with
    | none => exact Or.inr ⟨.invalidSpotResponse, by simp [fetchBinanceSpot, hp]⟩
    | some f =>
      by_cases ht : f.truthy
      · by_cases hv : (f.parsed.isNaN || f.parsed.leZero : Bool)
        · exact Or.inr ⟨.invalidSpotPrice, by simp [fetchBinanceSpot, hp, ht, hv]⟩
        · have h0 : (f.parsed.isNaN || f.parsed.leZero) = false := Bool.eq_false_iff.mpr hv
          obtain ⟨hv1, hv2⟩ := Bool.or_eq_false_iff.mp h0
          refine Or.inl ⟨f.parsed, by simp [fetchBinanceSpot, hp, ht, h0], hv1, ?_⟩
          cases hq : f.parsed with
          | nan => rw [hq] at hv1; simp [JsNum.isNaN] at hv1
          | posInf => exact Or.inl rfl
          | negInf => rw [hq] at hv2; simp [JsNum.leZero] at hv2
          | val q =>
            refine Or.inr ⟨q, rfl, ?_⟩
            rw [hq] at hv2
            simp only [JsNum.leZero, decide_eq_false_iff_not] at hv2
            exact lt_of_not_le hv2
      · exact Or.inr ⟨.invalidSpotResponse, by simp [fetchBinanceSpot, hp, ht]⟩

/-! ## Market data aggregator (src/script.js lines 1177-1258, `getMarketData`)

The cache-miss path is modelled as a function of the three settled fetch
outcomes (the `Promise.allSettled` join); the ISO timestamp string and the
per-source error message strings are omitted (only the source tag of each
`errors` entry is kept). -/

/-- `fetchCoinGecko`'s result: each field is `null` or a validated positive
number. -/
structure CoinGeckoRates where
  inr : Option ℚ
  ngn : Option ℚ
  deriving DecidableEq, Repr

inductive SourceTag where
  | binanceSpot
  | coinGecko
  | binanceP2P
  deriving DecidableEq, Repr

/-- JS truthiness filter on an optional number (`0` is falsy). -/
def jsTruthy : Option ℚ → Option ℚ
  | none => none
  | some v => if v = 0 then none else some v

inductive AggError where
  /-- "Critical: P2P data unavailable", carrying the collected errors -/
  | p2pUnavailable (errors : List SourceTag)
  /-- an `analyzeP2P` failure propagating out of the aggregation -/
  | analyzeFailed (e : AnalyzeError)
  deriving DecidableEq, Repr

structure MarketRates where
  binanceSpot : Option ℚ
  coinGeckoInr : Option ℚ
  coinGeckoNgn : Option ℚ
  ngnRateWithMarkup : ℚ
  p2pLowest : ℚ
  usedFallback : Bool
  deriving DecidableEq, Repr

structure MarketData where
  rates : MarketRates
  p2p : P2PStats
  /-- `undefined` when no per-source failure was recorded -/
  errors : Option (List SourceTag)
  deriving DecidableEq, Repr

/-- The cache-miss body of `getMarketData` (lines 1189-1257): collect
per-source failures in push order, hard-fail without P2P data, otherwise fall
back to `config.fallback.ngnRate` for a missing/falsy CoinGecko NGN rate, add
the flat markup, and run the analyzer. -/
def getMarketDataFresh (spotR : Except Unit ℚ) (cgR : Except Unit CoinGeckoRates)
    (p2pR : Except Unit (List RawItem)) : Except AggError MarketData :=
  let errors :=
    (match spotR with | .ok _ => [] | .error _ => [SourceTag.binanceSpot]) ++
    (match cgR with | .ok _ => [] | .error _ => [SourceTag.coinGecko]) ++
    (match p2pR with | .ok _ => [] | .error _ => [SourceTag.binanceP2P])
  let spot := spotR.toOption
  let coinGecko := cgR.toOption
  match p2pR with
  | .error _ => .error (.p2pUnavailable errors)
  | .ok p2pData =>
    -- `ngnRate = config.fallback.ngnRate; if (coinGecko && coinGecko.ngn) ngnRate = coinGecko.ngn;`
    -- `ngnRate += config.pricing.ngnMarkup;`
    let fetchedNgn := jsTruthy (coinGecko.bind CoinGeckoRates.ngn)
    let ngnRate := fetchedNgn.getD fallbackNgnRate + ngnMarkup
    match analyzeP2P (some p2pData) with
    | .error e => .error (.analyzeFailed e)
    | .ok p2pStats =>
      .ok { rates := { binanceSpot := spot,
                       coinGeckoInr := coinGecko.bind CoinGeckoRates.inr,
                       coinGeckoNgn := coinGecko.bind CoinGeckoRates.ngn,
                       ngnRateWithMarkup := ngnRate,
                       p2pLowest := p2pStats.lowestRate,
                       usedFallback := fetchedNgn.isNone },
            p2p := p2pStats,
            errors := if errors.isEmpty then none else some errors }

/-! ### Claim C2 -/

/-- C2: on a cache miss where the order-book fetch and its analysis succeed
but the reference-index (CoinGecko) fetch fails, `getMarketData` still
succeeds: the NGN rate is the configured fallback constant plus the flat
markup, `usedFallback = true`, and the errors list records exactly one entry
for the reference source; and an order-book failure always makes the
aggregation throw, whatever the other sources did. -/
theorem C2_reference_fallback (spotR : Except Unit ℚ) (items : List RawItem)
    (s : P2PStats) (h : analyzeP2P (some items) = .ok s) :
    (∃ md, getMarketDataFresh spotR (.error ()) (.ok items) = .ok md ∧
      md.rates.usedFallback = true ∧
      md.rates.ngnRateWithMarkup = fallbackNgnRate + ngnMarkup ∧
      md.p2p = s ∧
      ∃ l, md.errors = some l ∧
        (l.filter (fun t => t = SourceTag.coinGecko)).length = 1) ∧
    (∀ (spotR' : Except Unit ℚ) (cgR' : Except Unit CoinGeckoRates),
      ∃ errs, getMarketDataFresh spotR' cgR' (.error ()) =
        .error (.p2pUnavailable errs)) := by
  constructor
  · cases spotR with
    | ok v =>
      refine ⟨(⟨⟨some v, none, none, fallbackNgnRate + ngnMarkup, s.lowestRate, true⟩,
          s, some [SourceTag.coinGecko]⟩ : MarketData),
        ?_, rfl, rfl, rfl, ⟨[SourceTag.coinGecko], rfl, by decide⟩⟩
      simp [getMarketDataFresh, h, jsTruthy, Except.toOption]
    | error e =>
      refine ⟨(⟨⟨none, none, none, fallbackNgnRate + ngnMarkup, s.lowestRate, true⟩,
          s, some [SourceTag.binanceSpot, SourceTag.coinGecko]⟩ : MarketData),
        ?_, rfl, rfl, rfl,
        ⟨[SourceTag.binanceSpot, SourceTag.coinGecko], rfl, by decide⟩⟩
      simp [getMarketDataFresh, h, jsTruthy, Except.toOption]
  · intro spotR' cgR'
    cases spotR' with
    | ok _ =>
      cases cgR' with
      | ok _ => exact ⟨[SourceTag.binanceP2P], rfl⟩
      | error _ => exact ⟨[SourceTag.coinGecko, SourceTag.binanceP2P], rfl⟩
    | error _ =>
      cases cgR' with
      | ok _ => exact ⟨[SourceTag.binanceSpot, SourceTag.binanceP2P], rfl⟩
      | error _ =>
        exact ⟨[SourceTag.binanceSpot, SourceTag.coinGecko, SourceTag.binanceP2P], rfl⟩

/-- C2 (witness): the theorem applied at a succeeding spot fetch (`83`), the
concrete one-item order book `[sampleItem]`, and a failed CoinGecko fetch. -/
theorem C2_reference_fallback_witness :
    (∃ md, getMarketDataFresh (.ok 83) (.error ()) (.ok [sampleItem]) = .ok md ∧
      md.rates.usedFallback = true ∧
      md.rates.ngnRateWithMarkup = fallbackNgnRate + ngnMarkup ∧
      md.p2p = mkStats 1 [⟨75, .val 600, 400, 95⟩] ∧
      ∃ l, md.errors = some l ∧
        (l.filter (fun t => t = SourceTag.coinGecko)).length = 1) ∧
    (∀ (spotR' : Except Unit ℚ) (cgR' : Except Unit CoinGeckoRates),
      ∃ errs, getMarketDataFresh spotR' cgR' (.error ()) =
        .error (.p2pUnavailable errs)) :=
  C2_reference_fallback (.ok 83) [sampleItem] (mkStats 1 [⟨75, .val 600, 400, 95⟩]) (by rfl)

/-! ## Transaction sessions (src/script.js lines 933-1037 and the payment
routes, lines 1575-1884)

A Firebase `update` merges only the keys present in the update object, so a
session update is modelled as a patch record of `Option` fields applied over
the stored session.  The patch type includes the encrypted fields, so that
"no call site ever writes them" is a provable property of the call-site
patches rather than an artifact of the model. -/

inductive TxStatus where
  | pending
  | paymentInitiated
  | completed
  | failed
  deriving DecidableEq, Repr

/-- The plaintext of the `encryptedTransaction` blob captured at session
creation (lines 946-953); `encryptData` is a bijective envelope, so the
payload is modelled directly. -/
structure EncryptedTransaction where
  amount : ℚ
  srcCurrency : String
  dstCurrency : String
  exchangeRate : String
  youGet : String
  feeCharged : String
  deriving DecidableEq, Repr

/-- A stored session record (lines 955-970 plus the fields later merged in by
payment routes). -/
structure Session where
  sessionId : String
  status : TxStatus
  createdAt : ℤ
  expiresAt : ℤ
  encryptedUserDetails : String
  encryptedTransaction : EncryptedTransaction
  updatedAt : Option ℤ
  paystackReference : Option String
  paidAmount : Option ℚ
  paidAt : Option ℤ
  paymentChannel : Option String
  webhookReceivedAt : Option ℤ
  paymentGateway : Option String
  customerEmail : Option String
  verifiedAt : Option ℤ
  failureReason : Option String
  failedAt : Option ℤ
  paystackInitializedAt : Option ℤ
  deriving DecidableEq, Repr

/-- A Firebase `update(...)` object: only the keys present (`some`) are
written. -/
structure SessionPatch where
  status : Option TxStatus
  updatedAt : Option ℤ
  paystackReference : Option String
  paidAmount : Option ℚ
  paidAt : Option ℤ
  paymentChannel : Option String
  webhookReceivedAt : Option ℤ
  paymentGateway : Option String
  customerEmail : Option String
  verifiedAt : Option ℤ
  failureReason : Option String
  failedAt : Option ℤ
  paystackInitializedAt : Option ℤ
  encryptedUserDetails : Option String
  encryptedTransaction : Option EncryptedTransaction
  deriving DecidableEq, Repr

/-- The all-`none` patch (an empty `update` object). -/
def emptyPatch : SessionPatch :=
  ⟨none, none, none, none, none, none, none, none, none, none, none, none, none,
   none, none⟩

/-- `db.ref(...).update(patch)` — merge semantics of the Firebase multi-key
update: present keys overwrite, absent keys keep the stored value. -/
def applyPatch (p : SessionPatch) (s : Session) : Session :=
  { s with
    status := p.status.getD s.status,
    updatedAt := (p.updatedAt.map some).getD s.updatedAt,
    paystackReference := (p.paystackReference.map some).getD s.paystackReference,
    paidAmount := (p.paidAmount.map some).getD s.paidAmount,
    paidAt := (p.paidAt.map some).getD s.paidAt,
    paymentChannel := (p.paymentChannel.map some).getD s.paymentChannel,
    webhookReceivedAt := (p.webhookReceivedAt.map some).getD s.webhookReceivedAt,
    paymentGateway := (p.paymentGateway.map some).getD s.paymentGateway,
    customerEmail := (p.customerEmail.map some).getD s.customerEmail,
    verifiedAt := (p.verifiedAt.map some).getD s.verifiedAt,
    failureReason := (p.failureReason.map some).getD s.failureReason,
    failedAt := (p.failedAt.map some).getD s.failedAt,
    paystackInitializedAt := (p.paystackInitializedAt.map some).getD s.paystackInitializedAt,
    encryptedUserDetails := p.encryptedUserDetails.getD s.encryptedUserDetails,
    encryptedTransaction := p.encryptedTransaction.getD s.encryptedTransaction }

/-- The transaction metrics counters (`metrics.transactions`, line 334);
JS numbers, so `ℤ` (the `pending--` can drive the counter negative). -/
structure TxMetrics where
  total : ℤ
  pending : ℤ
  completed : ℤ
  failed : ℤ
  deriving DecidableEq, Repr

/-- `updateTransactionStatus(sessionId, status, additionalData)`
(lines 1007-1037): merge `{status, updatedAt, ...additionalData}` into the
session and bump the metrics counters — unconditionally, with no check of the
previous status. -/
def updateTransactionStatus (s : Session) (m : TxMetrics) (status : TxStatus)
    (now : ℤ) (additionalData : SessionPatch) : Session × TxMetrics :=
  let s' := applyPatch { additionalData with status := some status, updatedAt := some now } s
  let m' :=
    if status = .completed then
      { m with completed := m.completed + 1, pending := m.pending - 1 }
    else if status = .failed then
      { m with failed := m.failed + 1, pending := m.pending - 1 }
    else m
  (s', m')

/-- The webhook's `additionalData` for `charge.success` (lines 1866-1872). -/
def webhookCompletedData (reference : String) (amountKobo : ℚ) (paidAt : ℤ)
    (channel : String) (now : ℤ) : SessionPatch :=
  { emptyPatch with
    paystackReference := some reference, paidAmount := some (amountKobo / 100),
    paidAt := some paidAt, paymentChannel := some channel,
    webhookReceivedAt := some now }

/-- `GET /api/payment/verify`'s `additionalData` on success (lines 1771-1779). -/
def verifyCompletedData (reference : String) (amountKobo : ℚ) (paidAt : ℤ)
    (channel : String) (email : String) (now : ℤ) : SessionPatch :=
  { emptyPatch with
    paystackReference := some reference, paidAmount := some (amountKobo / 100),
    paidAt := some paidAt, paymentChannel := some channel,
    paymentGateway := some "Paystack", customerEmail := some email,
    verifiedAt := some now }

/-- `GET /api/payment/verify`'s `additionalData` on failure (lines 1793-1797). -/
def verifyFailedData (reference gatewayResponse : String) (now : ℤ) : SessionPatch :=
  { emptyPatch with
    paystackReference := some reference, failureReason := some gatewayResponse,
    failedAt := some now }

/-- The direct `update` of `POST /api/payment/verify-manual` on success
(lines 1701-1708) — no `updatedAt`, no metrics. -/
def manualVerifyCompletedPatch (reference : String) (amountKobo : ℚ) (channel : String)
    (now : ℤ) : SessionPatch :=
  { emptyPatch with
    status := some .completed, paystackReference := some reference,
    paidAmount := some (amountKobo / 100), paidAt := some now,
    paymentChannel := some channel, verifiedAt := some now }

/-- The direct `update` of `POST /api/payment/verify-manual` on failure
(lines 1723-1727). -/
def manualVerifyFailedPatch (gatewayResponse : String) (now : ℤ) : SessionPatch :=
  { emptyPatch with
    status := some .failed, failureReason := some gatewayResponse,
    failedAt := some now }

/-- The direct `update` of `POST /api/payment/initialize` (lines 1648-1652). -/
def initializePatch (reference : String) (now : ℤ) : SessionPatch :=
  { emptyPatch with
    paystackReference := some reference, paystackInitializedAt := some now,
    status := some .paymentInitiated }

/-- A concrete freshly-created session (`createTransactionSession` output,
status `pending`). -/
def sampleSession : Session :=
  ⟨"sess-1", .pending, 0, 300000, "enc-user",
   ⟨100000, "NGN", "INR", "15.90 per 1", "6246.86 INR", "1.5% (94.65)"⟩,
   none, none, none, none, none, none, none, none, none, none, none, none⟩

/-- The state after the first completed-payment transition on `sampleSession`
(metrics start at one pending transaction). -/
def c4Step1 : Session × TxMetrics :=
  updateTransactionStatus sampleSession ⟨1, 1, 0, 0⟩ .completed 1
    (webhookCompletedData "HP-ref-1" 100000 1 "card" 1)

/-- The state after a second completed-payment transition with the same
reference (webhook redundancy or a manual verify racing the webhook). -/
def c4Step2 : Session × TxMetrics :=
  updateTransactionStatus c4Step1.1 c4Step1.2 .completed 2
    (webhookCompletedData "HP-ref-1" 100000 1 "card" 2)

/-! ### Claim C4 -/

/-- C4: the payment-completion transition is *not* idempotent on the metrics
counters.  Invoked twice with the same reference on the same session, the
session status is `completed` after both invocations (that part of the claim
holds), but `updateTransactionStatus` increments `metrics.transactions.completed`
and decrements `pending` unconditionally, with no check of the previous
status: after the second invocation `completed` is 2 (not 1) and `pending`
is −1 (not 0) — the claimed "no double-counting" fails on the code. -/
theorem C4_completion_double_counts :
    c4Step1.1.status = .completed ∧ c4Step1.2.completed = 1 ∧ c4Step1.2.pending = 0 ∧
    c4Step2.1.status = .completed ∧ c4Step2.2.completed = 2 ∧ c4Step2.2.pending = -1 ∧
    c4Step2.2 ≠ c4Step1.2 := by
  refine ⟨rfl, rfl, rfl, rfl, rfl, rfl, ?_⟩
  intro h
  have : (2:ℤ) = 1 := congrArg TxMetrics.completed h
  norm_num at this

/-! ### Claim C7 -/

/-- C7: every payment-status transition of the code — `payment_initiated`,
`completed` and `failed`, via `updateTransactionStatus` (webhook, verify
success, verify failure) or the direct `db.update` calls (manual verify
success/failure, payment initialize) — leaves the session's locked financial
record (`encryptedTransaction`: amount, exchange rate, youGet, feeCharged)
and the `encryptedUserDetails` blob unchanged: no call-site patch carries
those keys. -/
theorem C7_status_updates_preserve_locked_fields (s : Session) (m : TxMetrics)
    (now paidAt : ℤ) (reference channel email gatewayResponse : String)
    (amountKobo : ℚ) :
    ((updateTransactionStatus s m .completed now
        (webhookCompletedData reference amountKobo paidAt channel now)).1.encryptedTransaction
      = s.encryptedTransaction ∧
     (updateTransactionStatus s m .completed now
        (webhookCompletedData reference amountKobo paidAt channel now)).1.encryptedUserDetails
      = s.encryptedUserDetails) ∧
    ((updateTransactionStatus s m .completed now
        (verifyCompletedData reference amountKobo paidAt channel email now)).1.encryptedTransaction
      = s.encryptedTransaction) ∧
    ((updateTransactionStatus s m .failed now
        (verifyFailedData reference gatewayResponse now)).1.encryptedTransaction
      = s.encryptedTransaction) ∧
    ((applyPatch (manualVerifyCompletedPatch reference amountKobo channel now) s).encryptedTransaction
      = s.encryptedTransaction) ∧
    ((applyPatch (manualVerifyFailedPatch gatewayResponse now) s).encryptedTransaction
      = s.encryptedTransaction) ∧
    ((applyPatch (initializePatch reference now) s).encryptedTransaction
      = s.encryptedTransaction) :=
  ⟨⟨rfl, rfl⟩, rfl, rfl, rfl, rfl, rfl⟩

/-! ## Conversion request validation and the `/api/convert` route
(src/script.js lines 851-888 and 1407-1571) -/

/-- The JS comparison `x < q` (false for NaN and +Infinity, true for −Infinity). -/
def JsNum.ltQ : JsNum → ℚ → Bool
  | .nan, _ => false
  | .posInf, _ => false
  | .negInf, _ => true
  | .val v, q => v < q

/-- The JS comparison `x > q` (false for NaN and −Infinity, true for +Infinity). -/
def JsNum.gtQ : JsNum → ℚ → Bool
  | .nan, _ => false
  | .posInf, _ => true
  | .negInf, _ => false
  | .val v, q => q < v

/-- The route's client-input failures.  `belowMinimum` carries the configured
minimum, which both the interpolated message
(`Amount must be at least ₦1,000`) and the `details.minAmount` field name. -/
inductive ValidationErr where
  /-- "Amount must be a valid number" -/
  | notANumber
  /-- "Amount must be greater than 0" -/
  | notPositive
  /-- `Amount must be at least ₦<min>` with `details = {minAmount}` -/
  | belowMinimum (minAmount : ℚ)
  /-- `Amount exceeds maximum limit of ₦<max>` with `details = {maxAmount}` -/
  | aboveMaximum (maxAmount : ℚ)
  /-- "Only NGN source currency supported" -/
  | badSourceCurrency
  /-- "Only INR target currency supported" -/
  | badTargetCurrency
  /-- "Transaction blocked due to security concerns" -/
  | blockedByFraudCheck
  deriving DecidableEq, Repr

/-- `validateConversionRequest(amount, from, to)` (lines 851-888) for a
numeric `amount` (a non-number payload is rejected by the same first guard,
`typeof amount !== 'number'`, before any of the modelled checks run). -/
def validateConversionRequest (amount : JsNum) (src dst : String) :
    Except ValidationErr Unit :=
  if amount.isNaN then .error .notANumber
  else if amount.leZero then .error .notPositive
  else if amount.ltQ minTransaction then .error (.belowMinimum minTransaction)
  else if amount.gtQ maxTransaction then .error (.aboveMaximum maxTransaction)
  else if src ≠ "NGN" then .error .badSourceCurrency
  else if dst ≠ "INR" then .error .badTargetCurrency
  else .ok ()

/-- The `/api/convert` handler pipeline (lines 1416-1569), threading the count
of sessions created so far: validation runs first (line 1437), then the fraud
gate (line 1456), then pricing/fees, and only then `createTransactionSession`
(line 1492), which is the only step that bumps the session count.  The
returned triple is (session id as its creation index, pricing, fees). -/
def convertHandler (amount : JsNum) (src dst : String) (fraudHigh : Bool)
    (md : MarketData) (r1 r2 : ℚ) (sessions : ℕ) :
    Except ValidationErr (ℕ × PricingResult × FeeResult) × ℕ :=
  match validateConversionRequest amount src dst with
  | .error e => (.error e, sessions)
  | .ok _ =>
    if fraudHigh then (.error .blockedByFraudCheck, sessions)
    else
      match amount with
      | .val amt =>
        let competitive := calculateCompetitiveRate md.rates.p2pLowest
          md.rates.ngnRateWithMarkup md.rates.coinGeckoInr r1 r2
        let grossInr := amt / competitive.targetRate
        let fees := calculateFees grossInr
        (.ok (sessions + 1, competitive, fees), sessions + 1)
      -- unreachable: validation rejects NaN and ±Infinity amounts
      | _ => (.error .notANumber, sessions)

/-! ### Claim C8 -/

/-- C8: every `/api/convert` request whose numeric amount is strictly positive
but below the configured minimum transaction (1000) is rejected with the
`ValidationError` naming the minimum, and the session count is unchanged — no
transaction session is created, regardless of currencies, fraud flags, market
data, or random draws. -/
theorem C8_below_minimum_rejected (q : ℚ) (hq0 : 0 < q) (hq : q < minTransaction)
    (src dst : String) (fraudHigh : Bool) (md : MarketData) (r1 r2 : ℚ)
    (sessions : ℕ) :
    convertHandler (.val q) src dst fraudHigh md r1 r2 sessions =
      (.error (.belowMinimum minTransaction), sessions) := by
  have h1 : (JsNum.val q).isNaN = false := rfl
  have h2 : (JsNum.val q).leZero = false := by
    simp [JsNum.leZero, not_le.mpr hq0]
  have h3 : (JsNum.val q).ltQ minTransaction = true := by
    simp [JsNum.ltQ, hq]
  simp [convertHandler, validateConversionRequest, h1, h2, h3]

/-- C8 (witness): the theorem applied at amount 500 (< 1000), the exact
scenario-D input, with `from="NGN"`, `to="INR"` and benign fraud/market
parameters. -/
theorem C8_below_minimum_rejected_witness :
    (0:ℚ) < 500 ∧ (500:ℚ) < minTransaction ∧
    convertHandler (.val 500) "NGN" "INR" false
        ⟨⟨none, none, none, 1670, 75, true⟩, mkStats 1 [⟨75, .val 600, 400, 95⟩], none⟩
        0 0 0 =
      (.error (.belowMinimum minTransaction), 0) :=
  ⟨by norm_num, by norm_num [minTransaction],
   C8_below_minimum_rejected 500 (by norm_num) (by norm_num [minTransaction])
     "NGN" "INR" false _ 0 0 0⟩

/-! ### Claim C5 -/

/-- C5: for every non-negative amount, `calculateFees` applies the first tier
whose `max` is ≥ the amount with an inclusive boundary (10000 pays 2.5%, not
2.0%), `feeAmount = amount × percent / 100`, `netAmount = amount − feeAmount`,
and `netAmount + feeAmount` is exactly the input amount. -/
theorem C5_fee_selection (a : ℚ) (ha : 0 ≤ a) :
    (calculateFees a).feePercent =
      (if a ≤ 10000 then 2.5 else if a ≤ 50000 then 2.0
       else if a ≤ 100000 then 1.5 else if a ≤ 500000 then 1.0 else 0.75) ∧
    (calculateFees a).feeAmount = a * (calculateFees a).feePercent / 100 ∧
    (calculateFees a).netAmount = a - (calculateFees a).feeAmount ∧
    (calculateFees a).netAmount + (calculateFees a).feeAmount = a ∧
    (calculateFees 10000).feePercent = 2.5 := by
  obtain ⟨hfee, hnet⟩ := calculateFees_formulas a
  refine ⟨calculateFees_feePercent a, hfee, hnet, ?_, ?_⟩
  · rw [hnet]; ring
  · rw [calculateFees_feePercent]; norm_num

/-- C5 (witness): the theorem applied at the boundary amount 10000. -/
theorem C5_fee_selection_witness :
    (0:ℚ) ≤ 10000 ∧
    ((calculateFees 10000).feePercent =
      (if (10000:ℚ) ≤ 10000 then 2.5 else if (10000:ℚ) ≤ 50000 then 2.0
       else if (10000:ℚ) ≤ 100000 then 1.5 else if (10000:ℚ) ≤ 500000 then 1.0 else 0.75) ∧
    (calculateFees 10000).feeAmount = 10000 * (calculateFees 10000).feePercent / 100 ∧
    (calculateFees 10000).netAmount = 10000 - (calculateFees 10000).feeAmount ∧
    (calculateFees 10000).netAmount + (calculateFees 10000).feeAmount = 10000 ∧
    (calculateFees 10000).feePercent = 2.5) :=
  ⟨by norm_num, C5_fee_selection 10000 (by norm_num)⟩

/-! ### Claim C10 -/

/-- C10: under the configured ascending tier table with the Infinity sentinel,
the applied fee percent is monotonically non-increasing in the amount: a
larger conversion never pays a higher fee percentage. -/
theorem C10_fee_percent_antitone (a b : ℚ) (ha : 0 ≤ a) (hab : a ≤ b) :
    (calculateFees b).feePercent ≤ (calculateFees a).feePercent := by
  rw [calculateFees_feePercent, calculateFees_feePercent]
  split_ifs <;> linarith

/-- C10 (witness): the theorem applied at the pair (10000, 10001), crossing
the first tier boundary. -/
theorem C10_fee_percent_antitone_witness :
    (0:ℚ) ≤ 10000 ∧ (10000:ℚ) ≤ 10001 ∧
    (calculateFees 10001).feePercent ≤ (calculateFees 10000).feePercent :=
  ⟨by norm_num, by norm_num,
   C10_fee_percent_antitone 10000 10001 (by norm_num) (by norm_num)⟩

end RateChecker
